import Mathlib

/-!
Verification of the GearGen build-and-publish pipeline.

The repository consists of a CI workflow (`src/unnamed/part_000`), two
provisioner specifications (`src/Dockerfile` and `src/unnamed/part_001`)
and a bundler configuration (`src/webpack.prod.js`).  The orchestration
core (deployment gate, stage executor, artifact collector, pipeline
coordinator) is declared by that configuration but implemented by the CI
platform, so those components are modelled here from the specification,
grounded in the configuration lines that instantiate them.
-/

namespace GearGen

/-! ## Deployment Gate

Modelled from the spec: the Deployment Gate (`acquire`/`release` with a
queue of waiters) is implemented by the CI platform; the workflow
instantiates it with `concurrency: group "pages", cancel-in-progress:
false` and the comment "Allow only one concurrent deployment, skipping
runs queued between the run in-progress and latest queued.  However, do
NOT cancel in-progress runs".  The model below tracks, for every run ever
triggered on the target, whether it is queued, holding the Permit,
skipped (dropped from the queue by a newer trigger) or released. -/

inductive RunStatus
  | queued
  | holding
  | skipped
  | released
deriving DecidableEq

/-- State of the gate for one target: all runs ever triggered, in trigger
order, each with its current status. -/
structure GateState where
  runs : List (Nat × RunStatus)
deriving DecidableEq

/-- Events observable at the gate: a new run is triggered for the target,
or the run currently publishing finishes (success or failure) and its
Permit is released. -/
inductive GateEvent
  | trigger (r : Nat)
  | finish (r : Nat)
deriving DecidableEq

/-- Status of run `r`: the status component of the first entry carrying
its identifier. -/
def GateState.statusOf (s : GateState) (r : Nat) : Option RunStatus :=
  (s.runs.find? (fun p => p.1 = r)).map Prod.snd

/-- Rewrite every status in place, keeping identifiers. -/
def mapStatus (g : Nat → RunStatus → RunStatus) (runs : List (Nat × RunStatus)) :
    List (Nat × RunStatus) :=
  runs.map (fun p => (p.1, g p.1 p.2))

/-- A newer trigger drops every queued run from the queue ("skipping runs
queued between the run in-progress and latest queued"). -/
def skipQueued (runs : List (Nat × RunStatus)) : List (Nat × RunStatus) :=
  mapStatus (fun _ st => if st = RunStatus.queued then RunStatus.skipped else st) runs

/-- Releasing the Permit grants it to the queued waiter. -/
def grantNext (runs : List (Nat × RunStatus)) : List (Nat × RunStatus) :=
  mapStatus (fun _ st => if st = RunStatus.queued then RunStatus.holding else st) runs

/-- Run `r` gives its Permit back. -/
def releaseRun (r : Nat) (runs : List (Nat × RunStatus)) : List (Nat × RunStatus) :=
  mapStatus (fun i st => if i = r ∧ st = RunStatus.holding then RunStatus.released else st) runs

/-- One step of the gate.  A trigger while a deployment is in flight
queues the new run and skips the previously queued one; a trigger on an
idle gate grants the Permit immediately.  A finish of the Permit holder
releases the Permit and grants it to the queued waiter; `finish` of a
non-holder does nothing. -/
def step (s : GateState) : GateEvent → GateState
  | GateEvent.trigger r =>
    if s.runs.any (fun p => p.2 = RunStatus.holding) then
      ⟨skipQueued s.runs ++ [(r, RunStatus.queued)]⟩
    else
      ⟨s.runs ++ [(r, RunStatus.holding)]⟩
  | GateEvent.finish r =>
    if s.statusOf r = some RunStatus.holding then
      ⟨grantNext (releaseRun r s.runs)⟩
    else
      s

/-- The gate state after a sequence of events, starting from the idle
gate. -/
def reach (es : List GateEvent) : GateState :=
  es.foldl step ⟨[]⟩

/-- Number of runs currently in status `st`. -/
def countStatus (st : RunStatus) : List (Nat × RunStatus) → Nat
  | [] => 0
  | p :: t => (if p.2 = st then 1 else 0) + countStatus st t

/-- Inductive invariant of the gate: at most one Permit holder, at most
one queued waiter, and a waiter only queues while someone holds. -/
def GateInv (s : GateState) : Prop :=
  countStatus RunStatus.holding s.runs ≤ 1 ∧
  countStatus RunStatus.queued s.runs ≤ 1 ∧
  (1 ≤ countStatus RunStatus.queued s.runs → 1 ≤ countStatus RunStatus.holding s.runs)

/-! ## Stage Executor

Modelled from the spec: the Stage Executor (`run(env, stages)`) exists in
the source only as the chained build command of `src/unnamed/part_000`,
step "Build Image and Run the build command":
`npm install && PATH=$HOME/.cargo/bin:$PATH NODE_ENV=production npm run build:prod`,
whose `&&` aborts the sequence at the first non-zero exit.  Command
execution is an opaque capability `exec : Stage → StageResult` as the
spec's design notes prescribe. -/

/-- A named unit of work with a command, working directory and
environment-variable overrides. -/
structure Stage where
  name : String
  command : String
  workdir : String
  env : List (String × String)
deriving DecidableEq

/-- Outcome of running one stage: exit status and captured output. -/
structure StageResult where
  stageName : String
  exitCode : Nat
  output : String
deriving DecidableEq

/-- Execute stages strictly in order; the first failing stage's result is
still appended, and no further stage runs. -/
def runStages (exec : Stage → StageResult) : List Stage → List StageResult
  | [] => []
  | s :: rest =>
    let r := exec s
    if r.exitCode = 0 then r :: runStages exec rest else [r]

/-- The workflow's first build stage (`npm install`). -/
def installStage : Stage :=
  { name := "install", command := "npm install", workdir := ".", env := [] }

/-- The PATH override of the second build stage, `$HOME/.cargo/bin:$PATH`,
expanded against the ambient environment at execution time. -/
def cargoPath (ambient : List (String × String)) : String :=
  "$HOME/.cargo/bin:" ++ ((ambient.lookup "PATH").getD "")

/-- The workflow's second build stage
(`PATH=$HOME/.cargo/bin:$PATH NODE_ENV=production npm run build:prod`). -/
def buildProdStage (ambient : List (String × String)) : Stage :=
  { name := "build:prod", command := "npm run build:prod", workdir := "."
    env := [("PATH", cargoPath ambient), ("NODE_ENV", "production")] }

/-- The concrete stage plan of the workflow's build job. -/
def pipelineStages (ambient : List (String × String)) : List Stage :=
  [installStage, buildProdStage ambient]

/-- Stage environment: the declared overrides merged over the ambient
environment; lookup finds the override first, so explicit overrides win
on key collision. -/
def mergeEnv (ambient overrides : List (String × String)) : List (String × String) :=
  overrides ++ ambient

/-! ## Artifact Collector

Modelled from the spec: `collect(env, patterns)` is implemented by the CI
platform's upload steps (`src/unnamed/part_000`, steps "Upload artifacts"
with paths `dist/*`, `pkg/*` and "Upload static files as pages artifact"
with path `dist/`).  Pattern resolution against the environment's
filesystem is the capability `globFiles : String → List String`. -/

/-- Failure naming the artifact whose pattern matched nothing. -/
structure CollectionError where
  artifactName : String
  pattern : String
deriving DecidableEq

/-- Mapping from logical artifact name to the file paths its glob
resolved to. -/
abbrev ArtifactSet : Type := List (String × List String)

/-- Collect every named pattern; all-or-nothing, failing with the first
pattern that resolves to zero files. -/
def collect (globFiles : String → List String) :
    List (String × String) → Except CollectionError ArtifactSet
  | [] => Except.ok []
  | q :: rest =>
    match globFiles q.2 with
    | [] => Except.error ⟨q.1, q.2⟩
    | f :: fs =>
      match collect globFiles rest with
      | Except.ok arts => Except.ok ((q.1, f :: fs) :: arts)
      | Except.error e => Except.error e

/-- The artifact-pattern mapping of the workflow's build job (the spec's
ArtifactSet example names the two path groups "dist" and "pkg"). -/
def artifactPatterns : List (String × String) :=
  [("dist", "dist/*"), ("pkg", "pkg/*")]

/-! ## Trigger filter

From `src/unnamed/part_000`: `on: push: branches: [main]`. -/

/-- An event descriptor: kind of event and branch/ref name. -/
structure TriggerEvent where
  kind : String
  branch : String
deriving DecidableEq

/-- The designated branches of the workflow trigger. -/
def triggerBranches : List String := ["main"]

/-- Does the event start a pipeline run at all? -/
def triggerMatches (e : TriggerEvent) : Bool :=
  e.kind = "push" && triggerBranches.contains e.branch

/-! ## Pipeline Coordinator

Modelled from the spec: the coordinator state machine
(`Pending -> Provisioning -> Executing -> Collecting -> AwaitingGate ->
Publishing -> Succeeded`, `Failed` from every non-terminal state) is the
CI platform's job graph: the deploy job of `src/unnamed/part_000` runs
with `needs: build`, so publishing starts only after the whole build job
succeeded.  Blocking at the gate is not modelled here (it is the gate
model above); the coordinator records the phases one run visits. -/

inductive Phase
  | Pending
  | Provisioning
  | Executing
  | Collecting
  | AwaitingGate
  | Publishing
  | Succeeded
  | Failed
deriving DecidableEq

/-- Everything one pipeline run leaves behind: visited phases in order,
stage results, collected artifacts, public URL, terminal phase. -/
structure RunOutcome where
  visited : List Phase
  stageResults : List StageResult
  artifacts : Option ArtifactSet
  url : Option String
  final : Phase

/-- One execution of the pipeline, created when a matching trigger
fires, in state `Pending`. -/
structure PipelineRun where
  trigger : TriggerEvent
  status : Phase
deriving DecidableEq

/-- A run is created only for a matching trigger; a rejected event
produces no run at all. -/
def startRun (e : TriggerEvent) : Option PipelineRun :=
  if triggerMatches e then some ⟨e, Phase.Pending⟩ else none

/-- Compose the pipeline: provision, execute stages, collect artifacts,
acquire the gate, publish, emitting a terminal status and the phases
visited along the way. -/
def coordinate (provision : Except String Unit) (exec : Stage → StageResult)
    (stages : List Stage) (globFiles : String → List String)
    (patterns : List (String × String))
    (publish : ArtifactSet → Except String String) : RunOutcome :=
  match provision with
  | Except.error _ =>
    { visited := [Phase.Pending, Phase.Provisioning, Phase.Failed]
      stageResults := [], artifacts := none, url := none, final := Phase.Failed }
  | Except.ok _ =>
    let rs := runStages exec stages
    if rs.all (fun r => r.exitCode = 0) then
      match collect globFiles patterns with
      | Except.error _ =>
        { visited := [Phase.Pending, Phase.Provisioning, Phase.Executing,
                      Phase.Collecting, Phase.Failed]
          stageResults := rs, artifacts := none, url := none, final := Phase.Failed }
      | Except.ok arts =>
        match publish arts with
        | Except.ok u =>
          { visited := [Phase.Pending, Phase.Provisioning, Phase.Executing,
                        Phase.Collecting, Phase.AwaitingGate, Phase.Publishing,
                        Phase.Succeeded]
            stageResults := rs, artifacts := some arts, url := some u
            final := Phase.Succeeded }
        | Except.error _ =>
          { visited := [Phase.Pending, Phase.Provisioning, Phase.Executing,
                        Phase.Collecting, Phase.AwaitingGate, Phase.Publishing,
                        Phase.Failed]
            stageResults := rs, artifacts := some arts, url := none
            final := Phase.Failed }
    else
      { visited := [Phase.Pending, Phase.Provisioning, Phase.Executing, Phase.Failed]
        stageResults := rs, artifacts := none, url := none, final := Phase.Failed }

/-! ## Provisioner specifications

Directly from the source: `src/Dockerfile` and its variant
`src/unnamed/part_001`. -/

/-- One token of a PATH value: a literal directory, or the splice of the
ambient PATH (`$PATH`). -/
inductive PathTok
  | lit (dir : String)
  | ambientPath
deriving DecidableEq

/-- Expand a PATH value against the ambient list of directories. -/
def expandPath (ambient : List String) : List PathTok → List String
  | [] => []
  | PathTok.lit d :: rest => d :: expandPath ambient rest
  | PathTok.ambientPath :: rest => ambient ++ expandPath ambient rest

/-- A provisioner specification: base image, toolchain install commands,
the PATH set by `ENV`, and the default command. -/
structure DockerSpec where
  baseImage : String
  runCommands : List String
  pathEnv : List PathTok
  cmd : String
deriving DecidableEq

/-- The cargo binary directory both Dockerfiles splice into PATH. -/
def cargoBinDir : String := "$HOME/.cargo/bin"

/-- The Dockerfile at `src/Dockerfile`: `ENV PATH=$HOME/.cargo/bin:$PATH`
prepends the cargo directory. -/
def dockerfileMain : DockerSpec :=
  { baseImage := "node:latest"
    runCommands :=
      [ "apt-get update && apt-get install -y build-essential"
      , "curl --proto '=https' --tlsv1.2 -sSf https://sh.rustup.rs | sh -s -- -y" ]
    pathEnv := [PathTok.lit cargoBinDir, PathTok.ambientPath]
    cmd := "bash" }

/-- The variant at `src/unnamed/part_001`: `ENV PATH=$PATH:$HOME/.cargo/bin`
appends the cargo directory. -/
def dockerfileVariant : DockerSpec :=
  { baseImage := "node:latest"
    runCommands :=
      [ "apt-get update && apt-get install -y build-essential"
      , "curl --proto '=https' --tlsv1.2 -sSf https://sh.rustup.rs | sh -s -- -y" ]
    pathEnv := [PathTok.ambientPath, PathTok.lit cargoBinDir]
    cmd := "bash" }

/-- Resolve a binary name against a PATH: the first directory containing
it wins; the resolved binary determines how the command executes. -/
def resolveBin (hasBin : String → String → Bool) (dirs : List String)
    (nm : String) : Option String :=
  dirs.find? (fun d => hasBin d nm)

/-! ## Pages publication

From the source: the pages artifact is uploaded from path `dist/`
(`src/unnamed/part_000`, step "Upload static files as pages artifact"),
which is the bundler's configured output directory
(`src/webpack.prod.js`: `output.path = path.resolve(__dirname, 'dist')`). -/

/-- The bundler's configured output directory. -/
def webpackOutputDir : String := "dist"

/-- The path the pages artifact is built from. -/
def pagesArtifactPath : String := "dist/"

/-- A file in the build environment: its top-level directory and its name
inside it. -/
structure FileEntry where
  dir : String
  leafName : String
deriving DecidableEq

/-- The directory a single-level pattern (`d/*`, `d/` or `d`) refers
to. -/
def patDirOf (pat : String) : String :=
  match pat.data.reverse with
  | '*' :: '/' :: rest => String.mk rest.reverse
  | '/' :: rest => String.mk rest.reverse
  | _ => pat

/-- Does a single-level directory pattern match the file? -/
def entryMatches (pat : String) (f : FileEntry) : Bool :=
  patDirOf pat = f.dir

/-- The files that become visible at the hosting target's public
endpoint: exactly those the pages artifact path covers. -/
def pagesPublished (files : List FileEntry) : List FileEntry :=
  files.filter (fun f => entryMatches pagesArtifactPath f)

/-! ## Concrete oracles used to exercise the models -/

/-- Execution oracle on which every command fails. -/
def execFail : Stage → StageResult :=
  fun s => { stageName := s.name, exitCode := 1, output := "command failed" }

/-- Execution oracle on which every command succeeds. -/
def execOk : Stage → StageResult :=
  fun s => { stageName := s.name, exitCode := 0, output := "ok" }

/-- Filesystem in which only `pkg/*` matched anything (the bundler step
produced nothing under `dist/`). -/
def fsPkgOnly : String → List String :=
  fun pat => if pat = "pkg/*" then ["pkg/gear_bg.wasm"] else []

/-- Filesystem in which both artifact patterns match. -/
def fsBoth : String → List String :=
  fun pat =>
    if pat = "dist/*" then ["dist/index.js"]
    else if pat = "pkg/*" then ["pkg/gear_bg.wasm"] else []

/-- Publisher that accepts every artifact set and returns the pages
URL. -/
def publishPages : ArtifactSet → Except String String :=
  fun _ => Except.ok "https://alecrosenbaum.github.io/GearGen/"

/-- Binary-presence oracle: only the cargo directory holds `wasm-pack`. -/
def hasBinCargoOnly : String → String → Bool :=
  fun d nm => d = cargoBinDir && nm = "wasm-pack"

/-! ## Deployment Gate: lemmas -/

lemma statusOf_mapStatus (g : Nat → RunStatus → RunStatus)
    (runs : List (Nat × RunStatus)) (r : Nat) :
    GateState.statusOf ⟨mapStatus g runs⟩ r =
      (GateState.statusOf ⟨runs⟩ r).map (g r) := by
  induction runs with
  | nil => rfl
  | cons p t ih =>
    by_cases h : p.1 = r
    · simp [GateState.statusOf, mapStatus, List.find?_cons, h]
    · simp [GateState.statusOf, mapStatus, List.find?_cons, h] at ih ⊢
      exact ih

lemma statusOf_append_left (l₁ l₂ : List (Nat × RunStatus)) (r : Nat) (st : RunStatus)
    (h : GateState.statusOf ⟨l₁⟩ r = some st) :
    GateState.statusOf ⟨l₁ ++ l₂⟩ r = some st := by
  unfold GateState.statusOf at h ⊢
  rw [Option.map_eq_some'] at h
  obtain ⟨a, hfind, hsnd⟩ := h
  show ((l₁ ++ l₂).find? fun p => p.1 = r).map Prod.snd = some st
  rw [List.find?_append, hfind]
  simp [hsnd]

lemma exists_entry_of_statusOf (s : GateState) (r : Nat) (st : RunStatus)
    (h : s.statusOf r = some st) :
    ∃ a ∈ s.runs, a.1 = r ∧ a.2 = st := by
  unfold GateState.statusOf at h
  rw [Option.map_eq_some'] at h
  obtain ⟨a, hfind, hsnd⟩ := h
  refine ⟨a, List.mem_of_find?_eq_some hfind, ?_, hsnd⟩
  have := List.find?_some hfind
  simpa using this

lemma skipQueued_cons (p : Nat × RunStatus) (t : List (Nat × RunStatus)) :
    skipQueued (p :: t) =
      (p.1, if p.2 = RunStatus.queued then RunStatus.skipped else p.2) :: skipQueued t := rfl

lemma grantNext_cons (p : Nat × RunStatus) (t : List (Nat × RunStatus)) :
    grantNext (p :: t) =
      (p.1, if p.2 = RunStatus.queued then RunStatus.holding else p.2) :: grantNext t := rfl

lemma releaseRun_cons (r : Nat) (p : Nat × RunStatus) (t : List (Nat × RunStatus)) :
    releaseRun r (p :: t) =
      (p.1, if p.1 = r ∧ p.2 = RunStatus.holding then RunStatus.released else p.2) ::
        releaseRun r t := rfl

lemma countStatus_append (st : RunStatus) (l₁ l₂ : List (Nat × RunStatus)) :
    countStatus st (l₁ ++ l₂) = countStatus st l₁ + countStatus st l₂ := by
  induction l₁ with
  | nil => simp [countStatus]
  | cons p t ih =>
    show (if p.2 = st then 1 else 0) + countStatus st (t ++ l₂) =
      ((if p.2 = st then 1 else 0) + countStatus st t) + countStatus st l₂
    omega

lemma countStatus_pos_of_mem {st : RunStatus} {a : Nat × RunStatus}
    {l : List (Nat × RunStatus)} (ha : a ∈ l) (hst : a.2 = st) :
    1 ≤ countStatus st l := by
  induction l with
  | nil => cases ha
  | cons p t ih =>
    rcases List.mem_cons.mp ha with rfl | hat
    · simp [countStatus, hst]
    · have := ih hat
      simp only [countStatus]
      omega

lemma any_status_iff (st : RunStatus) (l : List (Nat × RunStatus)) :
    l.any (fun p => p.2 = st) = true ↔ 1 ≤ countStatus st l := by
  induction l with
  | nil => simp [countStatus]
  | cons p t ih =>
    by_cases h : p.2 = st
    · simp [countStatus, h]
    · simp only [List.any_cons, countStatus, if_neg h]
      have hd : decide (p.2 = st) = false := by simp [h]
      rw [hd]
      simpa using ih

lemma countStatus_skipQueued_holding (l : List (Nat × RunStatus)) :
    countStatus RunStatus.holding (skipQueued l) = countStatus RunStatus.holding l := by
  induction l with
  | nil => rfl
  | cons p t ih =>
    rw [skipQueued_cons]
    by_cases h : p.2 = RunStatus.queued
    · simp [countStatus, h]
      exact ih
    · simp only [countStatus, if_neg h]
      omega

lemma countStatus_skipQueued_queued (l : List (Nat × RunStatus)) :
    countStatus RunStatus.queued (skipQueued l) = 0 := by
  induction l with
  | nil => rfl
  | cons p t ih =>
    rw [skipQueued_cons]
    by_cases h : p.2 = RunStatus.queued
    · simpa [countStatus, h] using ih
    · simpa [countStatus, if_neg h, h] using ih

lemma countStatus_grantNext_holding (l : List (Nat × RunStatus)) :
    countStatus RunStatus.holding (grantNext l) =
      countStatus RunStatus.holding l + countStatus RunStatus.queued l := by
  induction l with
  | nil => rfl
  | cons p t ih =>
    rw [grantNext_cons]
    by_cases h : p.2 = RunStatus.queued
    · simp [countStatus, h, ih]
      omega
    · by_cases h2 : p.2 = RunStatus.holding
      · simp [countStatus, h, h2, ih]
        omega
      · simp [countStatus, h, h2, ih]

lemma countStatus_grantNext_queued (l : List (Nat × RunStatus)) :
    countStatus RunStatus.queued (grantNext l) = 0 := by
  induction l with
  | nil => rfl
  | cons p t ih =>
    rw [grantNext_cons]
    by_cases h : p.2 = RunStatus.queued
    · simpa [countStatus, h] using ih
    · simpa [countStatus, if_neg h, h] using ih

lemma countStatus_releaseRun_queued (r : Nat) (l : List (Nat × RunStatus)) :
    countStatus RunStatus.queued (releaseRun r l) = countStatus RunStatus.queued l := by
  induction l with
  | nil => rfl
  | cons p t ih =>
    rw [releaseRun_cons]
    by_cases h : p.1 = r ∧ p.2 = RunStatus.holding
    · rw [if_pos h]
      simp [countStatus, h.2, ih]
    · rw [if_neg h]
      simp only [countStatus]
      omega

lemma countStatus_releaseRun_holding_le (r : Nat) (l : List (Nat × RunStatus)) :
    countStatus RunStatus.holding (releaseRun r l) ≤ countStatus RunStatus.holding l := by
  induction l with
  | nil => exact Nat.le_refl 0
  | cons p t ih =>
    rw [releaseRun_cons]
    by_cases h : p.1 = r ∧ p.2 = RunStatus.holding
    · rw [if_pos h]
      simp [countStatus, h.2]
      omega
    · rw [if_neg h]
      simp only [countStatus]
      omega

lemma countStatus_releaseRun_holding_lt (r : Nat) (l : List (Nat × RunStatus))
    (hmem : ∃ a ∈ l, a.1 = r ∧ a.2 = RunStatus.holding) :
    countStatus RunStatus.holding (releaseRun r l) < countStatus RunStatus.holding l := by
  induction l with
  | nil => obtain ⟨a, ha, _⟩ := hmem; cases ha
  | cons p t ih =>
    obtain ⟨a, ha, ha1, ha2⟩ := hmem
    rw [releaseRun_cons]
    rcases List.mem_cons.mp ha with rfl | hat
    · rw [if_pos ⟨ha1, ha2⟩]
      have hle := countStatus_releaseRun_holding_le r t
      simp [countStatus, ha2]
      omega
    · by_cases h : p.1 = r ∧ p.2 = RunStatus.holding
      · rw [if_pos h]
        have hle := countStatus_releaseRun_holding_le r t
        simp [countStatus, h.2]
        omega
      · rw [if_neg h]
        have := ih ⟨a, hat, ha1, ha2⟩
        simp only [countStatus]
        omega

lemma step_trigger_busy (s : GateState) (r : Nat)
    (hb : s.runs.any (fun p => p.2 = RunStatus.holding) = true) :
    step s (GateEvent.trigger r) = ⟨skipQueued s.runs ++ [(r, RunStatus.queued)]⟩ := by
  simp [step, hb]

lemma step_trigger_idle (s : GateState) (r : Nat)
    (hb : s.runs.any (fun p => p.2 = RunStatus.holding) = false) :
    step s (GateEvent.trigger r) = ⟨s.runs ++ [(r, RunStatus.holding)]⟩ := by
  simp [step, hb]

lemma step_finish_holder (s : GateState) (r : Nat)
    (hf : s.statusOf r = some RunStatus.holding) :
    step s (GateEvent.finish r) = ⟨grantNext (releaseRun r s.runs)⟩ := by
  simp [step, hf]

lemma step_finish_other (s : GateState) (r : Nat)
    (hf : ¬s.statusOf r = some RunStatus.holding) :
    step s (GateEvent.finish r) = s := by
  simp [step, hf]

lemma gateInv_step (s : GateState) (e : GateEvent) (h : GateInv s) : GateInv (step s e) := by
  obtain ⟨h1, h2, h3⟩ := h
  cases e with
  | trigger r =>
    cases hb : s.runs.any (fun p => p.2 = RunStatus.holding) with
    | true =>
      have hpos := (any_status_iff RunStatus.holding s.runs).mp hb
      rw [step_trigger_busy s r hb]
      refine ⟨?_, ?_, ?_⟩
      · show countStatus RunStatus.holding (skipQueued s.runs ++ [(r, RunStatus.queued)]) ≤ 1
        rw [countStatus_append, countStatus_skipQueued_holding]
        simp [countStatus]
        omega
      · show countStatus RunStatus.queued (skipQueued s.runs ++ [(r, RunStatus.queued)]) ≤ 1
        rw [countStatus_append, countStatus_skipQueued_queued]
        simp [countStatus]
      · intro _
        show 1 ≤ countStatus RunStatus.holding (skipQueued s.runs ++ [(r, RunStatus.queued)])
        rw [countStatus_append, countStatus_skipQueued_holding]
        omega
    | false =>
      have hz : countStatus RunStatus.holding s.runs = 0 := by
        by_contra hnz
        have hpos : 1 ≤ countStatus RunStatus.holding s.runs := by omega
        have hany := (any_status_iff RunStatus.holding s.runs).mpr hpos
        rw [hb] at hany
        cases hany
      rw [step_trigger_idle s r hb]
      refine ⟨?_, ?_, ?_⟩
      · show countStatus RunStatus.holding (s.runs ++ [(r, RunStatus.holding)]) ≤ 1
        rw [countStatus_append]
        simp [countStatus]
        omega
      · show countStatus RunStatus.queued (s.runs ++ [(r, RunStatus.holding)]) ≤ 1
        rw [countStatus_append]
        simp [countStatus]
        omega
      · intro _
        show 1 ≤ countStatus RunStatus.holding (s.runs ++ [(r, RunStatus.holding)])
        rw [countStatus_append]
        simp [countStatus]
  | finish r =>
    by_cases hf : s.statusOf r = some RunStatus.holding
    · obtain ⟨a, ha, ha1, ha2⟩ := exists_entry_of_statusOf s r RunStatus.holding hf
      have hlt := countStatus_releaseRun_holding_lt r s.runs ⟨a, ha, ha1, ha2⟩
      have hq := countStatus_releaseRun_queued r s.runs
      rw [step_finish_holder s r hf]
      refine ⟨?_, ?_, ?_⟩
      · show countStatus RunStatus.holding (grantNext (releaseRun r s.runs)) ≤ 1
        rw [countStatus_grantNext_holding]
        omega
      · show countStatus RunStatus.queued (grantNext (releaseRun r s.runs)) ≤ 1
        rw [countStatus_grantNext_queued]
        omega
      · intro hcontra
        have hcq : countStatus RunStatus.queued (grantNext (releaseRun r s.runs)) = 0 :=
          countStatus_grantNext_queued (releaseRun r s.runs)
        show 1 ≤ countStatus RunStatus.holding (grantNext (releaseRun r s.runs))
        have hcontra2 : 1 ≤ countStatus RunStatus.queued (grantNext (releaseRun r s.runs)) :=
          hcontra
        omega
    · rw [step_finish_other s r hf]
      exact ⟨h1, h2, h3⟩

lemma gateInv_foldl (es : List GateEvent) (s : GateState) (h : GateInv s) :
    GateInv (es.foldl step s) := by
  induction es generalizing s with
  | nil => exact h
  | cons e t ih => exact ih (step s e) (gateInv_step s e h)

lemma gateInv_reach (es : List GateEvent) : GateInv (reach es) := by
  refine gateInv_foldl es ⟨[]⟩ ?_
  refine ⟨?_, ?_, ?_⟩ <;> simp [countStatus]

lemma holding_unique (s : GateState) (hInv : GateInv s) (r r' : Nat)
    (hr : s.statusOf r = some RunStatus.holding)
    (hr' : s.statusOf r' = some RunStatus.holding) : r = r' := by
  by_contra hne
  obtain ⟨a, ha, ha1, ha2⟩ := exists_entry_of_statusOf s r RunStatus.holding hr
  obtain ⟨b, hb, hb1, hb2⟩ := exists_entry_of_statusOf s r' RunStatus.holding hr'
  have hab : a ≠ b := by
    intro hEq
    exact hne (ha1 ▸ hb1 ▸ congrArg Prod.fst hEq)
  obtain ⟨u, v, huv⟩ := List.append_of_mem ha
  have hbuv : b ∈ u ∨ b ∈ v := by
    rcases List.mem_append.mp (huv ▸ hb) with h | h
    · exact Or.inl h
    · rcases List.mem_cons.mp h with h | h
      · exact absurd h.symm hab
      · exact Or.inr h
  have h2 : 2 ≤ countStatus RunStatus.holding s.runs := by
    rw [huv, countStatus_append]
    rcases hbuv with h | h
    · have := countStatus_pos_of_mem h hb2
      simp [countStatus, ha2]
      omega
    · have := countStatus_pos_of_mem h hb2
      simp [countStatus, ha2]
      omega
  obtain ⟨hle, -, -⟩ := hInv
  omega

/-- C1: for the deployment target, at most one run ever holds a Permit at
any instant along every interleaving of triggered runs, so the interval
between an acquire returning and its matching release never overlaps with
another acquire returning for the same target; and releasing always
unblocks the queued waiter: once the holder finishes, a queued run holds
the Permit. -/
theorem gate_mutual_exclusion (es : List GateEvent) :
    countStatus RunStatus.holding (reach es).runs ≤ 1 ∧
    (∀ r r', (reach es).statusOf r = some RunStatus.holding →
      (reach es).statusOf r' = some RunStatus.holding → r = r') ∧
    (∀ q r, (reach es).statusOf q = some RunStatus.queued →
      (reach es).statusOf r = some RunStatus.holding →
      (reach (es ++ [GateEvent.finish r])).statusOf q = some RunStatus.holding) := by
  obtain ⟨h1, h2, h3⟩ := gateInv_reach es
  refine ⟨h1, ?_, ?_⟩
  · intro r r' hr hr'
    exact holding_unique (reach es) (gateInv_reach es) r r' hr hr'
  · intro q r hq hr
    have hstep : reach (es ++ [GateEvent.finish r]) = step (reach es) (GateEvent.finish r) := by
      simp [reach, List.foldl_append]
    rw [hstep, step_finish_holder (reach es) r hr]
    simp [grantNext, releaseRun, statusOf_mapStatus, hq]

/-- C1 witness: with runs 1 and 2 triggered, run 1 holds and run 2 is
queued; when run 1 finishes, run 2 holds the Permit. -/
theorem gate_mutual_exclusion_witness :
    (reach ([GateEvent.trigger 1, GateEvent.trigger 2] ++
      [GateEvent.finish 1])).statusOf 2 = some RunStatus.holding :=
  (gate_mutual_exclusion [GateEvent.trigger 1, GateEvent.trigger 2]).2.2 2 1
    (by decide) (by decide)

/-- C2: a run holding the Permit is never cancelled, preempted or forced
back by any later event: its status stays `holding` under every event,
except its own `finish`, which moves it to `released` — an in-progress
publish runs to completion before its Permit is released. -/
theorem gate_no_preemption (s : GateState) (e : GateEvent) (r : Nat)
    (h : s.statusOf r = some RunStatus.holding) :
    (step s e).statusOf r = some RunStatus.holding ∨
      (e = GateEvent.finish r ∧ (step s e).statusOf r = some RunStatus.released) := by
  cases e with
  | trigger q =>
    left
    obtain ⟨a, ha, ha1, ha2⟩ := exists_entry_of_statusOf s r RunStatus.holding h
    have hb : s.runs.any (fun p => p.2 = RunStatus.holding) = true :=
      (any_status_iff RunStatus.holding s.runs).mpr (countStatus_pos_of_mem ha ha2)
    rw [step_trigger_busy s q hb]
    apply statusOf_append_left
    simp [skipQueued, statusOf_mapStatus, h]
  | finish q =>
    by_cases hq : q = r
    · subst hq
      right
      refine ⟨rfl, ?_⟩
      rw [step_finish_holder s q h]
      simp [grantNext, releaseRun, statusOf_mapStatus, h]
    · left
      have hrq : ¬r = q := fun hh => hq hh.symm
      by_cases hf : s.statusOf q = some RunStatus.holding
      · rw [step_finish_holder s q hf]
        simp [grantNext, releaseRun, statusOf_mapStatus, h, hrq]
      · rw [step_finish_other s q hf]
        exact h

/-- C2 witness: run 1 holds the Permit; a second trigger does not disturb
it. -/
theorem gate_no_preemption_witness :
    (step (reach [GateEvent.trigger 1]) (GateEvent.trigger 2)).statusOf 1 =
        some RunStatus.holding ∨
      (GateEvent.trigger 2 = GateEvent.finish 1 ∧
        (step (reach [GateEvent.trigger 1]) (GateEvent.trigger 2)).statusOf 1 =
          some RunStatus.released) :=
  gate_no_preemption (reach [GateEvent.trigger 1]) (GateEvent.trigger 2) 1 (by decide)

/-- C3 counterexample: run 2, queued behind in-flight run 1, is removed
from the queue by the arrival of run 3 without ever being granted the
Permit — the gate does implement skip-intermediate semantics, so a queued
run is not guaranteed to remain pending until granted. -/
theorem gate_drops_intermediate_queued :
    (reach [GateEvent.trigger 1, GateEvent.trigger 2]).statusOf 2 =
        some RunStatus.queued ∧
      (reach [GateEvent.trigger 1, GateEvent.trigger 2,
        GateEvent.trigger 3]).statusOf 2 = some RunStatus.skipped := by
  decide

/-- C3 amended: a queued run leaves the queue only by being granted the
Permit or by being skipped when a newer run is triggered for the same
target. -/
theorem gate_queued_run_fate (s : GateState) (e : GateEvent) (r : Nat)
    (h : s.statusOf r = some RunStatus.queued) :
    (step s e).statusOf r = some RunStatus.queued ∨
    (step s e).statusOf r = some RunStatus.holding ∨
    (∃ q, e = GateEvent.trigger q ∧ (step s e).statusOf r = some RunStatus.skipped) := by
  cases e with
  | trigger q =>
    cases hb : s.runs.any (fun p => p.2 = RunStatus.holding) with
    | true =>
      right; right
      refine ⟨q, rfl, ?_⟩
      rw [step_trigger_busy s q hb]
      apply statusOf_append_left
      simp [skipQueued, statusOf_mapStatus, h]
    | false =>
      left
      rw [step_trigger_idle s q hb]
      apply statusOf_append_left
      exact h
  | finish q =>
    by_cases hf : s.statusOf q = some RunStatus.holding
    · right; left
      rw [step_finish_holder s q hf]
      simp [grantNext, releaseRun, statusOf_mapStatus, h]
    · left
      rw [step_finish_other s q hf]
      exact h

/-- C3 amended witness: queued run 2 is skipped by the trigger of run 3. -/
theorem gate_queued_run_fate_witness :
    (step (reach [GateEvent.trigger 1, GateEvent.trigger 2])
        (GateEvent.trigger 3)).statusOf 2 = some RunStatus.queued ∨
    (step (reach [GateEvent.trigger 1, GateEvent.trigger 2])
        (GateEvent.trigger 3)).statusOf 2 = some RunStatus.holding ∨
    (∃ q, GateEvent.trigger 3 = GateEvent.trigger q ∧
      (step (reach [GateEvent.trigger 1, GateEvent.trigger 2])
        (GateEvent.trigger 3)).statusOf 2 = some RunStatus.skipped) :=
  gate_queued_run_fate (reach [GateEvent.trigger 1, GateEvent.trigger 2])
    (GateEvent.trigger 3) 2 (by decide)

/-! ## Theorems: Stage Executor -/

lemma runStages_eq (exec : Stage → StageResult) (stages : List Stage) (k : Nat)
    (hk : k < stages.length)
    (hpre : ∀ s_ ∈ stages.take k, (exec s_).exitCode = 0)
    (hfail : (exec (stages.get ⟨k, hk⟩)).exitCode ≠ 0) :
    runStages exec stages = (stages.take k).map exec ++ [exec (stages.get ⟨k, hk⟩)] := by
  induction stages generalizing k with
  | nil => simp at hk
  | cons s rest ih =>
    cases k with
    | zero =>
      have hf : (exec s).exitCode ≠ 0 := hfail
      show (if (exec s).exitCode = 0 then exec s :: runStages exec rest else [exec s]) = _
      rw [if_neg hf]
      simp
    | succ k =>
      have hs : (exec s).exitCode = 0 := hpre s (by simp)
      have hk2 : k < rest.length := by simpa using hk
      have hpre2 : ∀ s_ ∈ rest.take k, (exec s_).exitCode = 0 := fun x hx =>
        hpre x (by simp [hx])
      have hfail2 : (exec (rest.get ⟨k, hk2⟩)).exitCode ≠ 0 := hfail
      show (if (exec s).exitCode = 0 then exec s :: runStages exec rest else [exec s]) = _
      rw [if_pos hs, ih k hk2 hpre2 hfail2]
      simp

/-- C4: if stage `k` (0-based) is the first stage whose command exits
non-zero, the result list is exactly the results of the `k` succeeding
stages followed by the failing stage's result — `k + 1` entries, no stage
after `k` executed; and in the concrete pipeline the `build:prod` stage
runs only if `npm install` succeeded. -/
theorem executor_stops_at_first_failure (exec : Stage → StageResult)
    (stages : List Stage) (ambient : List (String × String)) (k : Nat)
    (hk : k < stages.length)
    (hpre : ∀ s_ ∈ stages.take k, (exec s_).exitCode = 0)
    (hfail : (exec (stages.get ⟨k, hk⟩)).exitCode ≠ 0) :
    runStages exec stages = (stages.take k).map exec ++ [exec (stages.get ⟨k, hk⟩)] ∧
    (runStages exec stages).length = k + 1 ∧
    (runStages exec (pipelineStages ambient) = [exec installStage] ∨
      (exec installStage).exitCode = 0) := by
  have hmain := runStages_eq exec stages k hk hpre hfail
  refine ⟨hmain, ?_, ?_⟩
  · rw [hmain]
    simp [List.length_take]
    omega
  · by_cases hI : (exec installStage).exitCode = 0
    · exact Or.inr hI
    · left
      show (if (exec installStage).exitCode = 0
          then exec installStage :: runStages exec [buildProdStage ambient]
          else [exec installStage]) = [exec installStage]
      rw [if_neg hI]

/-- C4 witness: with an oracle on which every command fails, the one-stage
plan stops at its first stage with exactly one result. -/
theorem executor_stops_at_first_failure_witness :
    runStages execFail [installStage] =
        ([installStage].take 0).map execFail ++
          [execFail ([installStage].get ⟨0, by decide⟩)] ∧
      (runStages execFail [installStage]).length = 0 + 1 :=
  ⟨(executor_stops_at_first_failure execFail [installStage] [] 0 (by decide)
      (by simp) (by decide)).1,
    (executor_stops_at_first_failure execFail [installStage] [] 0 (by decide)
      (by simp) (by decide)).2.1⟩

/-! ## Theorems: Artifact Collector -/

lemma collect_ok_iff (globFiles : String → List String) (ps : List (String × String)) :
    (∃ arts, collect globFiles ps = Except.ok arts) ↔ ∀ q ∈ ps, globFiles q.2 ≠ [] := by
  induction ps with
  | nil => simp [collect]
  | cons q t ih =>
    cases hq : globFiles q.2 with
    | nil =>
      simp only [collect, hq]
      constructor
      · rintro ⟨arts, habs⟩
        exact Except.noConfusion habs
      · intro h
        exact absurd hq (h q (by simp))
    | cons f fs =>
      simp only [collect, hq]
      cases hrec : collect globFiles t with
      | ok arts =>
        constructor
        · intro _ p hp
          rcases List.mem_cons.mp hp with rfl | hpt
          · simp [hq]
          · exact (ih.mp ⟨arts, hrec⟩) p hpt
        · intro _
          exact ⟨(q.1, f :: fs) :: arts, rfl⟩
      | error e =>
        constructor
        · rintro ⟨arts, habs⟩
          exact Except.noConfusion habs
        · intro h
          obtain ⟨arts, hok⟩ := ih.mpr (fun p hp => h p (List.mem_cons_of_mem q hp))
          rw [hok] at hrec
          exact Except.noConfusion hrec

lemma collect_first_error (globFiles : String → List String)
    (pre post : List (String × String)) (nm pat : String)
    (hpre : ∀ q ∈ pre, globFiles q.2 ≠ []) (hfail : globFiles pat = []) :
    collect globFiles (pre ++ (nm, pat) :: post) = Except.error ⟨nm, pat⟩ := by
  induction pre with
  | nil =>
    simp only [List.nil_append, collect, hfail]
  | cons q t ih =>
    have hq := hpre q (by simp)
    cases hqq : globFiles q.2 with
    | nil => exact absurd hqq hq
    | cons f fs =>
      have hrec := ih (fun x hx => hpre x (by simp [hx]))
      simp only [List.cons_append, collect, List.append_eq, hqq, hrec]

/-- C5: artifact collection succeeds exactly when every pattern matches at
least one file; the first pattern in order that matches zero files makes
the whole collection fail with a CollectionError naming that artifact and
pattern, and no artifact set is produced. -/
theorem collect_all_or_nothing (globFiles : String → List String)
    (patterns pre post : List (String × String)) (nm pat : String)
    (hsplit : patterns = pre ++ (nm, pat) :: post)
    (hpre : ∀ q ∈ pre, globFiles q.2 ≠ [])
    (hfail : globFiles pat = []) :
    collect globFiles patterns = Except.error ⟨nm, pat⟩ ∧
    (∀ ps : List (String × String),
      (∃ arts, collect globFiles ps = Except.ok arts) ↔ ∀ q ∈ ps, globFiles q.2 ≠ []) := by
  subst hsplit
  exact ⟨collect_first_error globFiles pre post nm pat hpre hfail,
    fun ps => collect_ok_iff globFiles ps⟩

/-- C5 witness: with `dist/` empty and `pkg/` non-empty, collecting the
workflow's artifact patterns fails naming the `dist` artifact (the first
unmatched pattern), not `pkg`. -/
theorem collect_all_or_nothing_witness :
    collect fsPkgOnly artifactPatterns =
      Except.error { artifactName := "dist", pattern := "dist/*" } :=
  (collect_all_or_nothing fsPkgOnly artifactPatterns [] [("pkg", "pkg/*")]
    "dist" "dist/*" (by decide) (by simp) (by decide)).1

/-! ## Theorems: trigger filter and coordinator -/

/-- C6: a PipelineRun is created if and only if the trigger event is a
push to the designated branch `main`; a push to `feature/x` is rejected
before Provisioning begins, producing no run at all. -/
theorem trigger_filter (e : TriggerEvent) :
    ((startRun e).isSome ↔ e.kind = "push" ∧ e.branch = "main") ∧
    startRun { kind := "push", branch := "feature/x" } = none := by
  constructor
  · simp [startRun, triggerMatches, triggerBranches]
  · decide

lemma runStages_all_ok_length (exec : Stage → StageResult) (stages : List Stage)
    (h : (runStages exec stages).all (fun r => r.exitCode = 0) = true) :
    (runStages exec stages).length = stages.length := by
  induction stages with
  | nil => rfl
  | cons s rest ih =>
    by_cases hs : (exec s).exitCode = 0
    · have hcons : runStages exec (s :: rest) = exec s :: runStages exec rest := by
        show (if (exec s).exitCode = 0 then _ else _) = _
        rw [if_pos hs]
      rw [hcons] at h ⊢
      simp only [List.all_cons, Bool.and_eq_true] at h
      simp [ih h.2]
    · have hcons : runStages exec (s :: rest) = [exec s] := by
        show (if (exec s).exitCode = 0 then _ else _) = _
        rw [if_neg hs]
      rw [hcons] at h
      simp at h
      exact absurd h hs

/-- C7: the environment a stage's command runs with is the declared
overrides merged over the ambient environment, the override winning on key
collision; in the concrete build stage the explicit
`PATH=$HOME/.cargo/bin:$PATH` and `NODE_ENV=production` settings take
precedence over the provisioned environment's values. -/
theorem stage_env_override_wins (ambient overrides : List (String × String)) (k : String) :
    (mergeEnv ambient overrides).lookup k =
      ((overrides.lookup k).or (ambient.lookup k)) ∧
    (mergeEnv ambient (buildProdStage ambient).env).lookup "PATH" =
      some (cargoPath ambient) ∧
    (mergeEnv ambient (buildProdStage ambient).env).lookup "NODE_ENV" =
      some "production" := by
  refine ⟨?_, ?_, ?_⟩
  · induction overrides with
    | nil => simp [mergeEnv]
    | cons p t ih =>
      obtain ⟨a, b⟩ := p
      show List.lookup k ((a, b) :: (t ++ ambient)) = _
      rw [List.lookup_cons, List.lookup_cons]
      cases hk : k == a with
      | true => rfl
      | false => exact ih
  · show List.lookup "PATH"
      (("PATH", cargoPath ambient) :: ("NODE_ENV", "production") :: ambient) = _
    rw [List.lookup_cons]
    rfl
  · show List.lookup "NODE_ENV"
      (("PATH", cargoPath ambient) :: ("NODE_ENV", "production") :: ambient) = _
    rw [List.lookup_cons]
    have h1 : ("NODE_ENV" == "PATH") = false := by decide
    rw [h1]
    rfl

/-- C8: a run reaches Publishing only after provisioning, every stage and
artifact collection succeeded — on any earlier failure the deploy phase is
never visited — and a successful publish ends the run Succeeded carrying
the non-empty public URL. -/
theorem publish_gated_on_build (provision : Except String Unit)
    (exec : Stage → StageResult) (stages : List Stage)
    (globFiles : String → List String) (patterns : List (String × String))
    (publish : ArtifactSet → Except String String) (arts : ArtifactSet) (u : String)
    (hprov : provision = Except.ok ())
    (hstages : (runStages exec stages).all (fun r => r.exitCode = 0) = true)
    (hcoll : collect globFiles patterns = Except.ok arts)
    (hpub : publish arts = Except.ok u) (hu : u ≠ "") :
    (coordinate provision exec stages globFiles patterns publish).final = Phase.Succeeded ∧
    (coordinate provision exec stages globFiles patterns publish).url = some u ∧
    u ≠ "" ∧
    (∀ (provision' : Except String Unit) (exec' : Stage → StageResult)
        (stages' : List Stage) (globFiles' : String → List String)
        (patterns' : List (String × String))
        (publish' : ArtifactSet → Except String String),
      Phase.Publishing ∉
          (coordinate provision' exec' stages' globFiles' patterns' publish').visited ∨
        (provision' = Except.ok () ∧
          (runStages exec' stages').all (fun r => r.exitCode = 0) = true ∧
          (runStages exec' stages').length = stages'.length ∧
          ∃ a, collect globFiles' patterns' = Except.ok a)) := by
  have hsucc : coordinate provision exec stages globFiles patterns publish =
      { visited := [Phase.Pending, Phase.Provisioning, Phase.Executing,
          Phase.Collecting, Phase.AwaitingGate, Phase.Publishing, Phase.Succeeded]
        stageResults := runStages exec stages
        artifacts := some arts, url := some u, final := Phase.Succeeded } := by
    rw [hprov]
    simp [coordinate, hstages, hcoll, hpub]
  refine ⟨by rw [hsucc], by rw [hsucc], hu, ?_⟩
  intro provision' exec' stages' globFiles' patterns' publish'
  cases provision' with
  | error msg =>
    left
    simp [coordinate]
  | ok v =>
    cases v
    cases hc : (runStages exec' stages').all (fun r => r.exitCode = 0) with
    | false =>
      left
      simp [coordinate, hc]
    | true =>
      cases hcol : collect globFiles' patterns' with
      | error e =>
        left
        simp [coordinate, hc, hcol]
      | ok a =>
        exact Or.inr ⟨rfl, rfl, runStages_all_ok_length exec' stages' hc, ⟨a, rfl⟩⟩

/-- C8 witness: the end-to-end success scenario on the concrete pipeline
ends Succeeded with the pages URL. -/
theorem publish_gated_on_build_witness :
    (coordinate (Except.ok ()) execOk (pipelineStages []) fsBoth artifactPatterns
        publishPages).final = Phase.Succeeded ∧
    (coordinate (Except.ok ()) execOk (pipelineStages []) fsBoth artifactPatterns
        publishPages).url = some "https://alecrosenbaum.github.io/GearGen/" :=
  ⟨(publish_gated_on_build (Except.ok ()) execOk (pipelineStages []) fsBoth
      artifactPatterns publishPages
      [("dist", ["dist/index.js"]), ("pkg", ["pkg/gear_bg.wasm"])]
      "https://alecrosenbaum.github.io/GearGen/"
      rfl (by decide) rfl rfl (by decide)).1,
   (publish_gated_on_build (Except.ok ()) execOk (pipelineStages []) fsBoth
      artifactPatterns publishPages
      [("dist", ["dist/index.js"]), ("pkg", ["pkg/gear_bg.wasm"])]
      "https://alecrosenbaum.github.io/GearGen/"
      rfl (by decide) rfl rfl (by decide)).2.1⟩

/-! ## Theorems: provisioner specifications -/

/-- C9: the two provisioner specifications share the base image, the
toolchain install commands and the default command, and differ only in
whether the cargo directory is prepended or appended to PATH (the two PATH
values are permutations of each other); any binary name not present in
both the cargo directory and the ambient PATH resolves to the same
directory in both environments, so such commands execute identically. -/
theorem dockerfiles_equivalent (hasBin : String → String → Bool)
    (ambient : List String) (nm : String)
    (hnot : ¬(hasBin cargoBinDir nm = true ∧
      ambient.any (fun d => hasBin d nm) = true)) :
    dockerfileMain.baseImage = dockerfileVariant.baseImage ∧
    dockerfileMain.runCommands = dockerfileVariant.runCommands ∧
    dockerfileMain.cmd = dockerfileVariant.cmd ∧
    (expandPath ambient dockerfileMain.pathEnv).Perm
      (expandPath ambient dockerfileVariant.pathEnv) ∧
    resolveBin hasBin (expandPath ambient dockerfileMain.pathEnv) nm =
      resolveBin hasBin (expandPath ambient dockerfileVariant.pathEnv) nm := by
  refine ⟨rfl, rfl, rfl, ?_, ?_⟩
  · show (cargoBinDir :: (ambient ++ [])).Perm (ambient ++ cargoBinDir :: [])
    rw [List.append_nil]
    exact (List.perm_append_singleton cargoBinDir ambient).symm
  · show List.find? (fun d => hasBin d nm) (cargoBinDir :: (ambient ++ [])) =
      List.find? (fun d => hasBin d nm) (ambient ++ cargoBinDir :: [])
    rw [List.append_nil]
    cases hc : hasBin cargoBinDir nm with
    | false =>
      rw [List.find?_cons, List.find?_append]
      simp [hc, Option.or]
      cases List.find? (fun d => hasBin d nm) ambient with
      | none => simp [List.find?_cons, hc]
      | some d => simp
    | true =>
      have hamb : ambient.any (fun d => hasBin d nm) = false := by
        cases hh : ambient.any (fun d => hasBin d nm) with
        | false => rfl
        | true => exact absurd ⟨hc, hh⟩ hnot
      have hnone : ambient.find? (fun d => hasBin d nm) = none := by
        rw [List.find?_eq_none]
        exact List.any_eq_false.mp hamb
      rw [List.find?_cons, List.find?_append, hnone]
      simp [hc, List.find?_cons]

/-- C9 witness: `wasm-pack`, present only in the cargo directory, resolves
identically under both PATH compositions. -/
theorem dockerfiles_equivalent_witness :
    resolveBin hasBinCargoOnly (expandPath ["/usr/local/bin"] dockerfileMain.pathEnv)
        "wasm-pack" =
      resolveBin hasBinCargoOnly (expandPath ["/usr/local/bin"] dockerfileVariant.pathEnv)
        "wasm-pack" :=
  (dockerfiles_equivalent hasBinCargoOnly ["/usr/local/bin"] "wasm-pack"
    (by decide)).2.2.2.2

/-! ## Theorems: pages publication -/

/-- C10: the hosting target publishes exactly the files of the bundler's
output directory `dist` (the pages artifact path); a file of the `pkg`
artifact is recorded in the artifact-pattern map but never becomes visible
at the public endpoint. -/
theorem pkg_artifact_not_published (files : List FileEntry) (f : FileEntry)
    (hpkg : entryMatches "pkg/*" f = true) :
    f ∉ pagesPublished files ∧
    (∀ g, g ∈ pagesPublished files ↔ g ∈ files ∧ entryMatches "dist/*" g = true) ∧
    ("pkg", "pkg/*") ∈ artifactPatterns ∧
    webpackOutputDir ++ "/" = pagesArtifactPath := by
  have hd0 : patDirOf "pkg/*" = "pkg" := by decide
  have hd1 : patDirOf pagesArtifactPath = "dist" := by decide
  have hd2 : patDirOf "dist/*" = "dist" := by decide
  have hdirs : f.dir = "pkg" := by
    simp [entryMatches, hd0] at hpkg
    exact hpkg.symm
  refine ⟨?_, ?_, by decide, by decide⟩
  · intro hmem
    rw [pagesPublished, List.mem_filter] at hmem
    have h2 := hmem.2
    simp [entryMatches, hd1, hdirs] at h2
  · intro g
    rw [pagesPublished, List.mem_filter]
    simp [entryMatches, hd1, hd2]

/-- C10 witness: the wasm package file is not among the published files
although it sits next to the dist files. -/
theorem pkg_artifact_not_published_witness :
    (⟨"pkg", "gear_bg.wasm"⟩ : FileEntry) ∉
      pagesPublished [⟨"dist", "index.js"⟩, ⟨"pkg", "gear_bg.wasm"⟩] :=
  (pkg_artifact_not_published [⟨"dist", "index.js"⟩, ⟨"pkg", "gear_bg.wasm"⟩]
    ⟨"pkg", "gear_bg.wasm"⟩ (by decide)).1

end GearGen
